import Mathlib

/-!
Verification of the DeepInfra embedding client
(`llama_index/embeddings/deepinfra/base.py`).

The Python module defines a class `DeepInfraEmbeddingModel` holding five
configuration fields, a module-level helper `_chunk` that slices a list into
batches of at most `MAX_BATCH_SIZE` items, a blocking request loop `_post`
(using `requests`, with `raise_for_status`), a suspendable request loop
`_apost` (using `aiohttp`, with no status check), and thin wrapper methods
for query/text, single/batched, blocking/suspendable embedding retrieval.

The embedding below is a shallow one:

* the remote HTTP transport is a parameter `Transport V`, a function from a
  request (url, inputs, authorization header) to either a transport-level
  error (a raised exception before a response object exists) or a response;
* a response is modelled as `DIResponse V`: a success flag `resOk`
  (`raise_for_status` raises exactly when the status is not a success
  status) and an optional `embeddings` field of the parsed JSON body
  (`none` models a body without an "embeddings" key, on which the Python
  subscription raises `KeyError`);
* embedding vectors are opaque values of a type parameter `V`; the client
  never inspects them;
* each loop also returns the trace of requests it issued, in order, so that
  theorems can speak about what was submitted to the remote service;
* Python's `range(start, stop, step)` is `rangeStep`, and the slice
  `items[i : i + M]` of a list with non-negative bounds is
  `(items.drop i).take M`.
-/

/-- DeepInfra Inference API URL (module constant `INFERENCE_URL`). -/
def INFERENCE_URL : String := "https://api.deepinfra.com/v1/inference"

/-- Environment variable name of the DeepInfra API token (`ENV_VARIABLE`). -/
def ENV_VARIABLE : String := "DEEPINFRA_API_TOKEN"

/-- Default model ID (`DEFAULT_MODEL_ID`). -/
def DEFAULT_MODEL_ID : String := "sentence-transformers/clip-ViT-B-32"

/-- Maximum batch size for embedding requests (`MAX_BATCH_SIZE`). -/
def MAX_BATCH_SIZE : Nat := 1024

/-- Python `range(start, stop, step)` for a non-negative step: the indices
`start, start + step, ...` strictly below `stop`; empty when `step = 0`
(Python would raise there; the source only ever uses `step = 1024`). -/
def rangeStep (start stop step : Nat) : List Nat :=
  if 0 < step ∧ start < stop then
    start :: rangeStep (start + step) stop step
  else
    []
termination_by stop - start
decreasing_by omega

/-- `_chunk` with the batch size made an explicit parameter `M`:
`[items[i : i + M] for i in range(0, len(items), M)]`. -/
def _chunkWith (M : Nat) (items : List α) : List (List α) :=
  (rangeStep 0 items.length M).map (fun i => (items.drop i).take M)

/-- Module-level `_chunk`: chunk items into batches of size `MAX_BATCH_SIZE`. -/
def _chunk (items : List α) : List (List α) :=
  _chunkWith MAX_BATCH_SIZE items

lemma rangeStep_nil (start stop step : Nat) (h : ¬(0 < step ∧ start < stop)) :
    rangeStep start stop step = [] := by
  rw [rangeStep, if_neg h]

lemma rangeStep_cons (start stop step : Nat) (hstep : 0 < step)
    (hlt : start < stop) :
    rangeStep start stop step = start :: rangeStep (start + step) stop step := by
  conv_lhs => rw [rangeStep]
  rw [if_pos ⟨hstep, hlt⟩]

lemma rangeStep_shift_aux (step stop : Nat) (hstep : 0 < step) :
    ∀ fuel s, stop - s ≤ fuel →
      rangeStep (s + step) stop step
        = (rangeStep s (stop - step) step).map (fun i => i + step) := by
  intro fuel
  induction fuel with
  | zero =>
    intro s hs
    rw [rangeStep_nil _ _ _ (by omega), rangeStep_nil _ _ _ (by omega)]
    rfl
  | succ fuel ih =>
    intro s hs
    by_cases hlt : s < stop - step
    · rw [rangeStep_cons s (stop - step) step hstep hlt,
        rangeStep_cons (s + step) stop step hstep (by omega),
        List.map_cons, ih (s + step) (by omega)]
    · rw [rangeStep_nil _ _ _ (by omega), rangeStep_nil _ _ _ (by omega)]
      rfl

lemma rangeStep_shift (step stop s : Nat) (hstep : 0 < step) :
    rangeStep (s + step) stop step
      = (rangeStep s (stop - step) step).map (fun i => i + step) :=
  rangeStep_shift_aux step stop hstep (stop - s) s le_rfl

lemma chunkWith_nil (M : Nat) : _chunkWith M ([] : List α) = [] := by
  simp only [_chunkWith, List.length_nil]
  rw [rangeStep_nil _ _ _ (by omega)]
  rfl

lemma chunkWith_cons (M : Nat) (hM : 0 < M) (l : List α) (hl : l ≠ []) :
    _chunkWith M l = l.take M :: _chunkWith M (l.drop M) := by
  have hlen : 0 < l.length := List.length_pos.2 hl
  simp only [_chunkWith]
  rw [rangeStep_cons 0 l.length M hM hlen, List.map_cons, List.drop_zero,
    rangeStep_shift M l.length 0 hM, List.map_map, List.length_drop]
  refine congrArg _ (List.map_congr_left fun i _ => ?_)
  simp only [Function.comp_apply, List.drop_drop]
  rw [Nat.add_comm i M]

lemma chunkWith_ne_nil_of_arg (M : Nat) (l : List α)
    (h : _chunkWith M l ≠ []) : l ≠ [] := by
  intro he
  exact h (he ▸ chunkWith_nil M)

lemma chunkWith_flatten_aux (M : Nat) (hM : 0 < M) :
    ∀ fuel (l : List α), l.length ≤ fuel → (_chunkWith M l).flatten = l := by
  intro fuel
  induction fuel with
  | zero =>
    intro l hl
    have : l = [] := List.eq_nil_of_length_eq_zero (by omega)
    rw [this, chunkWith_nil]
    rfl
  | succ fuel ih =>
    intro l hl
    by_cases he : l = []
    · rw [he, chunkWith_nil]; rfl
    · have hlen : 0 < l.length := List.length_pos.2 he
      rw [chunkWith_cons M hM l he, List.flatten_cons,
        ih (l.drop M) (by rw [List.length_drop]; omega),
        List.take_append_drop]

lemma chunkWith_flatten (M : Nat) (hM : 0 < M) (l : List α) :
    (_chunkWith M l).flatten = l :=
  chunkWith_flatten_aux M hM l.length l le_rfl

lemma chunkWith_length_aux (M : Nat) (hM : 0 < M) :
    ∀ fuel (l : List α), l.length ≤ fuel →
      (_chunkWith M l).length = (l.length + M - 1) / M := by
  intro fuel
  induction fuel with
  | zero =>
    intro l hl
    have : l = [] := List.eq_nil_of_length_eq_zero (by omega)
    rw [this, chunkWith_nil]
    simp only [List.length_nil]
    rw [Nat.zero_add, Nat.div_eq_of_lt (by omega)]
  | succ fuel ih =>
    intro l hl
    by_cases he : l = []
    · rw [he, chunkWith_nil]
      simp only [List.length_nil]
      rw [Nat.zero_add, Nat.div_eq_of_lt (by omega)]
    · have hlen : 0 < l.length := List.length_pos.2 he
      rw [chunkWith_cons M hM l he, List.length_cons,
        ih (l.drop M) (by rw [List.length_drop]; omega), List.length_drop]
      by_cases hle : l.length ≤ M
      · have e1 : l.length - M + M - 1 = M - 1 := by omega
        have e2 : l.length + M - 1 = (l.length - 1) + M := by omega
        rw [e1, e2, Nat.add_div_right (l.length - 1) hM,
          Nat.div_eq_of_lt (show M - 1 < M by omega),
          Nat.div_eq_of_lt (show l.length - 1 < M by omega)]
      · have e1 : l.length - M + M - 1 = (l.length - M - 1) + M := by omega
        have e2 : l.length + M - 1 = ((l.length - M - 1) + M) + M := by omega
        rw [e1, e2, Nat.add_div_right ((l.length - M - 1) + M) hM]

lemma chunkWith_length (M : Nat) (hM : 0 < M) (l : List α) :
    (_chunkWith M l).length = (l.length + M - 1) / M :=
  chunkWith_length_aux M hM l.length l le_rfl

lemma chunkWith_mem_aux (M : Nat) (hM : 0 < M) :
    ∀ fuel (l : List α), l.length ≤ fuel →
      ∀ c ∈ _chunkWith M l, 0 < c.length ∧ c.length ≤ M := by
  intro fuel
  induction fuel with
  | zero =>
    intro l hl c hc
    have : l = [] := List.eq_nil_of_length_eq_zero (by omega)
    rw [this, chunkWith_nil] at hc
    exact absurd hc (List.not_mem_nil c)
  | succ fuel ih =>
    intro l hl c hc
    by_cases he : l = []
    · rw [he, chunkWith_nil] at hc
      exact absurd hc (List.not_mem_nil c)
    · have hlen : 0 < l.length := List.length_pos.2 he
      rw [chunkWith_cons M hM l he] at hc
      rcases List.mem_cons.1 hc with h | h
      · subst h
        rw [List.length_take]
        constructor
        · exact lt_min hM hlen
        · exact min_le_left _ _
      · exact ih (l.drop M) (by rw [List.length_drop]; omega) c h

lemma chunkWith_full_aux (M : Nat) (hM : 0 < M) :
    ∀ fuel (l : List α), l.length ≤ fuel →
      ∀ i : Nat, i + 1 < (_chunkWith M l).length →
        ∃ c, (_chunkWith M l)[i]? = some c ∧ c.length = M := by
  intro fuel
  induction fuel with
  | zero =>
    intro l hl i hi
    have : l = [] := List.eq_nil_of_length_eq_zero (by omega)
    rw [this, chunkWith_nil] at hi
    simp at hi
  | succ fuel ih =>
    intro l hl i hi
    by_cases he : l = []
    · rw [he, chunkWith_nil] at hi
      simp at hi
    · have hlen : 0 < l.length := List.length_pos.2 he
      rw [chunkWith_cons M hM l he] at hi ⊢
      rw [List.length_cons] at hi
      match i with
      | 0 =>
        refine ⟨l.take M, by simp, ?_⟩
        have hrest : _chunkWith M (l.drop M) ≠ [] := by
          intro hz
          rw [hz] at hi
          simp at hi
        have hdrop : l.drop M ≠ [] := chunkWith_ne_nil_of_arg M _ hrest
        have : 0 < l.length - M := by
          have := List.length_pos.2 hdrop
          rwa [List.length_drop] at this
        rw [List.length_take]
        omega
      | Nat.succ j =>
        rw [List.getElem?_cons_succ]
        exact ih (l.drop M) (by rw [List.length_drop]; omega) j (by omega)

/-- C1: for every input list of length `L` and batch size `M > 0`, `_chunk`
(with batch size parameter `M`; the source fixes `M = MAX_BATCH_SIZE`)
returns exactly `ceil(L / M)` batches (zero batches for an empty input),
every batch is nonempty of length at most `M`, every batch except possibly
the last has length exactly `M`, and concatenating the batches in order
reconstructs the input list. -/
theorem c1_chunk_correct (M : Nat) (hM : 0 < M) (l : List String) :
    (_chunkWith M l).length = (l.length + M - 1) / M
    ∧ (_chunkWith M l).flatten = l
    ∧ (∀ c ∈ _chunkWith M l, 0 < c.length ∧ c.length ≤ M)
    ∧ (∀ i : Nat, i + 1 < (_chunkWith M l).length →
        ∃ c, (_chunkWith M l)[i]? = some c ∧ c.length = M)
    ∧ (l = [] → _chunkWith M l = [])
    ∧ _chunk l = _chunkWith MAX_BATCH_SIZE l :=
  ⟨chunkWith_length M hM l,
   chunkWith_flatten M hM l,
   chunkWith_mem_aux M hM l.length l le_rfl,
   chunkWith_full_aux M hM l.length l le_rfl,
   fun he => he ▸ chunkWith_nil M,
   rfl⟩

/-- Witness for C1 at batch size 2 and a five-element input. -/
theorem c1_chunk_correct_witness :
    0 < 2
    ∧ ((_chunkWith 2 ["a", "b", "c", "d", "e"]).length = (5 + 2 - 1) / 2
      ∧ (_chunkWith 2 ["a", "b", "c", "d", "e"]).flatten
          = ["a", "b", "c", "d", "e"]
      ∧ (∀ c ∈ _chunkWith 2 ["a", "b", "c", "d", "e"],
          0 < c.length ∧ c.length ≤ 2)
      ∧ (∀ i : Nat, i + 1 < (_chunkWith 2 ["a", "b", "c", "d", "e"]).length →
          ∃ c, (_chunkWith 2 ["a", "b", "c", "d", "e"])[i]? = some c
            ∧ c.length = 2)
      ∧ ((["a", "b", "c", "d", "e"] : List String) = []
          → _chunkWith 2 ["a", "b", "c", "d", "e"] = [])
      ∧ _chunk ["a", "b", "c", "d", "e"]
          = _chunkWith MAX_BATCH_SIZE ["a", "b", "c", "d", "e"]) :=
  ⟨by decide, c1_chunk_correct 2 (by decide) ["a", "b", "c", "d", "e"]⟩

/-- The client's configuration state: the five private fields of
`DeepInfraEmbeddingModel` (`_model_id`, `_normalize`, `_api_token`,
`_query_prefix` and `_text_prefix`; the latter two are named `queryPref` and
`textPref` here). `api_token` is optional: the Python default is `None`. -/
structure DeepInfraEmbeddingModel where
  model_id : String
  normalize : Bool
  api_token : Option String
  queryPref : String
  textPref : String
deriving DecidableEq

/-- Python `os.getenv(name, default)`: the environment variable's value when
it is set, otherwise the supplied default. -/
def getenvOr (envValue : Option String) (dflt : Option String) : Option String :=
  match envValue with
  | some v => some v
  | none => dflt

/-- `__init__`: stores the five fields; the stored token is
`os.getenv(ENV_VARIABLE, api_token)`, where `envValue` models the value of
the `DEEPINFRA_API_TOKEN` environment variable at construction time. -/
def mkClient (envValue : Option String) (model_id : String) (normalize : Bool)
    (api_token : Option String) (queryPref textPref : String) :
    DeepInfraEmbeddingModel :=
  { model_id := model_id
    normalize := normalize
    api_token := getenvOr envValue api_token
    queryPref := queryPref
    textPref := textPref }

/-- `get_url`: the inference URL followed by the model id. -/
def get_url (c : DeepInfraEmbeddingModel) : String :=
  INFERENCE_URL ++ "/" ++ c.model_id

/-- Python string interpolation of an optional string: `None` prints as the
four-letter word. -/
def tokenStr : Option String → String
  | some t => t
  | none => "None"

/-- One HTTP request as built by `_post`/`_apost`: the url, the JSON body's
`inputs` list, and the `Authorization` header. -/
structure DIRequest where
  url : String
  inputs : List String
  auth : String
deriving DecidableEq

/-- The request both loops build for a chunk. -/
def mkReq (c : DeepInfraEmbeddingModel) (chunk : List String) : DIRequest :=
  { url := get_url c
    inputs := chunk
    auth := "Bearer " ++ tokenStr c.api_token }

/-- A remote response: `resOk` is true when the HTTP status is a success
status (`raise_for_status` raises exactly when it is not), and `embeddings`
is the optional `embeddings` field of the parsed JSON body (`none` models a
body without that key, on which subscription raises `KeyError`). Vectors are
opaque values of `V`. -/
structure DIResponse (V : Type) where
  resOk : Bool
  embeddings : Option (List V)
deriving DecidableEq

/-- What an embedding call can raise: a transport-level exception carrying a
message, an HTTP error status (from `raise_for_status`), a missing
`embeddings` key (`KeyError`), or indexing an empty result (`IndexError`). -/
inductive EmbedErr where
  | transportErr (msg : String)
  | statusErr
  | keyErr
  | indexErr
deriving DecidableEq

/-- A deterministic remote transport: maps a request to a transport-level
error or a response. -/
abbrev Transport (V : Type) := DIRequest → Except String (DIResponse V)

/-- The loop body of `_post`: for each chunk, in order, issue one request;
raise on transport errors, on a non-success status (`raise_for_status`), or
on a missing `embeddings` key; otherwise extend the accumulator with the
returned vectors. Also returns the trace of requests issued, in order. -/
def postGo {V : Type} (c : DeepInfraEmbeddingModel) (T : Transport V) :
    List (List String) → List V → List DIRequest × Except EmbedErr (List V)
  | [], acc => ([], Except.ok acc)
  | chunk :: rest, acc =>
    let req := mkReq c chunk
    match T req with
    | Except.error e => ([req], Except.error (EmbedErr.transportErr e))
    | Except.ok resp =>
      if resp.resOk then
        match resp.embeddings with
        | none => ([req], Except.error EmbedErr.keyErr)
        | some es =>
          let r := postGo c T rest (acc ++ es)
          (req :: r.1, r.2)
      else ([req], Except.error EmbedErr.statusErr)

/-- The loop body of `_apost`: identical to `postGo` except that the
response status is never consulted (the source calls `resp.json()` and
subscripts it without `raise_for_status`). -/
def apostGo {V : Type} (c : DeepInfraEmbeddingModel) (T : Transport V) :
    List (List String) → List V → List DIRequest × Except EmbedErr (List V)
  | [], acc => ([], Except.ok acc)
  | chunk :: rest, acc =>
    let req := mkReq c chunk
    match T req with
    | Except.error e => ([req], Except.error (EmbedErr.transportErr e))
    | Except.ok resp =>
      match resp.embeddings with
      | none => ([req], Except.error EmbedErr.keyErr)
      | some es =>
        let r := apostGo c T rest (acc ++ es)
        (req :: r.1, r.2)

/-- `_post` with the batch size a parameter. -/
def _postWith {V : Type} (M : Nat) (c : DeepInfraEmbeddingModel)
    (T : Transport V) (data : List String) :
    List DIRequest × Except EmbedErr (List V) :=
  postGo c T (_chunkWith M data) []

/-- `_post`: chunk the data and run the blocking request loop. -/
def _post {V : Type} (c : DeepInfraEmbeddingModel) (T : Transport V)
    (data : List String) : List DIRequest × Except EmbedErr (List V) :=
  _postWith MAX_BATCH_SIZE c T data

/-- `_apost` with the batch size a parameter. -/
def _apostWith {V : Type} (M : Nat) (c : DeepInfraEmbeddingModel)
    (T : Transport V) (data : List String) :
    List DIRequest × Except EmbedErr (List V) :=
  apostGo c T (_chunkWith M data) []

/-- `_apost`: chunk the data and run the suspendable request loop. -/
def _apost {V : Type} (c : DeepInfraEmbeddingModel) (T : Transport V)
    (data : List String) : List DIRequest × Except EmbedErr (List V) :=
  _apostWith MAX_BATCH_SIZE c T data

/-- `_add_query_prefix`: prepend the query prefix to every query. -/
def addQueryPref (c : DeepInfraEmbeddingModel) (queries : List String) :
    List String :=
  queries.map (fun query => c.queryPref ++ query)

/-- `_add_text_prefix`: prepend the text prefix to every text. -/
def addTextPref (c : DeepInfraEmbeddingModel) (texts : List String) :
    List String :=
  texts.map (fun text => c.textPref ++ text)

/-- Python `[0]` on a list-valued result: the first element, or `IndexError`
on an empty list; an already-raised error propagates. -/
def pyIdx0 {V : Type} : Except EmbedErr (List V) → Except EmbedErr V
  | Except.error e => Except.error e
  | Except.ok [] => Except.error EmbedErr.indexErr
  | Except.ok (v :: _) => Except.ok v

/-- `_get_query_embedding`: `self._post(self._add_query_prefix([query]))[0]`. -/
def _get_query_embedding {V : Type} (c : DeepInfraEmbeddingModel)
    (T : Transport V) (query : String) : List DIRequest × Except EmbedErr V :=
  let r := _post c T (addQueryPref c [query])
  (r.1, pyIdx0 r.2)

/-- `_aget_query_embedding`: the suspendable single-query wrapper. -/
def _aget_query_embedding {V : Type} (c : DeepInfraEmbeddingModel)
    (T : Transport V) (query : String) : List DIRequest × Except EmbedErr V :=
  let r := _apost c T (addQueryPref c [query])
  (r.1, pyIdx0 r.2)

/-- `_get_query_embeddings`: `self._post(self._add_query_prefix(queries))`. -/
def _get_query_embeddings {V : Type} (c : DeepInfraEmbeddingModel)
    (T : Transport V) (queries : List String) :
    List DIRequest × Except EmbedErr (List V) :=
  _post c T (addQueryPref c queries)

/-- `_aget_query_embeddings`: the suspendable batched-query wrapper. -/
def _aget_query_embeddings {V : Type} (c : DeepInfraEmbeddingModel)
    (T : Transport V) (queries : List String) :
    List DIRequest × Except EmbedErr (List V) :=
  _apost c T (addQueryPref c queries)

/-- `_get_text_embedding`: `self._post(self._add_text_prefix([text]))[0]`. -/
def _get_text_embedding {V : Type} (c : DeepInfraEmbeddingModel)
    (T : Transport V) (text : String) : List DIRequest × Except EmbedErr V :=
  let r := _post c T (addTextPref c [text])
  (r.1, pyIdx0 r.2)

/-- `_aget_text_embedding`: the suspendable single-text wrapper. -/
def _aget_text_embedding {V : Type} (c : DeepInfraEmbeddingModel)
    (T : Transport V) (text : String) : List DIRequest × Except EmbedErr V :=
  let r := _apost c T (addTextPref c [text])
  (r.1, pyIdx0 r.2)

/-- `_get_text_embeddings`: `self._post(self._add_text_prefix(texts))`. -/
def _get_text_embeddings {V : Type} (c : DeepInfraEmbeddingModel)
    (T : Transport V) (texts : List String) :
    List DIRequest × Except EmbedErr (List V) :=
  _post c T (addTextPref c texts)

/-- `_aget_text_embeddings`: the suspendable batched-text wrapper. -/
def _aget_text_embeddings {V : Type} (c : DeepInfraEmbeddingModel)
    (T : Transport V) (texts : List String) :
    List DIRequest × Except EmbedErr (List V) :=
  _apost c T (addTextPref c texts)

/-- A transport in which the remote service computes the vector of every
input string with a fixed function `f`, answers every request with a success
status and, for each batch, the ordered list of the vectors of the batch's
inputs. -/
def oracleT {V : Type} (f : String → V) : Transport V :=
  fun req => Except.ok { resOk := true, embeddings := some (req.inputs.map f) }

lemma postGo_oracle {V : Type} (c : DeepInfraEmbeddingModel) (T : Transport V)
    (f : String → V)
    (hT : ∀ req, T req
      = Except.ok { resOk := true, embeddings := some (req.inputs.map f) }) :
    ∀ (chs : List (List String)) (acc : List V),
      postGo c T chs acc
        = (chs.map (mkReq c),
           Except.ok (acc ++ (chs.map (List.map f)).flatten)) := by
  intro chs
  induction chs with
  | nil => intro acc; simp [postGo]
  | cons ch rest ih =>
    intro acc
    simp [postGo, hT, mkReq, ih, List.append_assoc]

lemma apostGo_oracle {V : Type} (c : DeepInfraEmbeddingModel) (T : Transport V)
    (f : String → V)
    (hT : ∀ req, T req
      = Except.ok { resOk := true, embeddings := some (req.inputs.map f) }) :
    ∀ (chs : List (List String)) (acc : List V),
      apostGo c T chs acc
        = (chs.map (mkReq c),
           Except.ok (acc ++ (chs.map (List.map f)).flatten)) := by
  intro chs
  induction chs with
  | nil => intro acc; simp [apostGo]
  | cons ch rest ih =>
    intro acc
    simp [apostGo, hT, mkReq, ih, List.append_assoc]

lemma postWith_oracle {V : Type} (M : Nat) (hM : 0 < M)
    (c : DeepInfraEmbeddingModel) (T : Transport V) (f : String → V)
    (hT : ∀ req, T req
      = Except.ok { resOk := true, embeddings := some (req.inputs.map f) })
    (data : List String) :
    _postWith M c T data
      = ((_chunkWith M data).map (mkReq c), Except.ok (data.map f)) := by
  rw [_postWith, postGo_oracle c T f hT, List.nil_append,
    ← List.map_flatten, chunkWith_flatten M hM data]

lemma apostWith_oracle {V : Type} (M : Nat) (hM : 0 < M)
    (c : DeepInfraEmbeddingModel) (T : Transport V) (f : String → V)
    (hT : ∀ req, T req
      = Except.ok { resOk := true, embeddings := some (req.inputs.map f) })
    (data : List String) :
    _apostWith M c T data
      = ((_chunkWith M data).map (mkReq c), Except.ok (data.map f)) := by
  rw [_apostWith, apostGo_oracle c T f hT, List.nil_append,
    ← List.map_flatten, chunkWith_flatten M hM data]

lemma MAX_BATCH_SIZE_pos : 0 < MAX_BATCH_SIZE := by decide

lemma post_oracle {V : Type} (c : DeepInfraEmbeddingModel) (T : Transport V)
    (f : String → V)
    (hT : ∀ req, T req
      = Except.ok { resOk := true, embeddings := some (req.inputs.map f) })
    (data : List String) :
    _post c T data = ((_chunk data).map (mkReq c), Except.ok (data.map f)) :=
  postWith_oracle MAX_BATCH_SIZE MAX_BATCH_SIZE_pos c T f hT data

lemma apost_oracle {V : Type} (c : DeepInfraEmbeddingModel) (T : Transport V)
    (f : String → V)
    (hT : ∀ req, T req
      = Except.ok { resOk := true, embeddings := some (req.inputs.map f) })
    (data : List String) :
    _apost c T data = ((_chunk data).map (mkReq c), Except.ok (data.map f)) :=
  apostWith_oracle MAX_BATCH_SIZE MAX_BATCH_SIZE_pos c T f hT data

lemma map_addQueryPref {V : Type} (c : DeepInfraEmbeddingModel)
    (f : String → V) (queries : List String) :
    (addQueryPref c queries).map f
      = queries.map (fun q => f (c.queryPref ++ q)) := by
  rw [addQueryPref, List.map_map]
  rfl

lemma map_addTextPref {V : Type} (c : DeepInfraEmbeddingModel)
    (f : String → V) (texts : List String) :
    (addTextPref c texts).map f
      = texts.map (fun t => f (c.textPref ++ t)) := by
  rw [addTextPref, List.map_map]
  rfl

/-- C2: with a remote service that answers every batch with an ordered list
of vectors of the batch's inputs, in order (here computed by an arbitrary
per-string function `f`), the batched blocking and suspendable embedding
methods return one vector per input, the i-th vector being the one the
service returned for the i-th prefixed input; in particular the output
length equals the input length. -/
theorem c2_embed_length_order {V : Type} (c : DeepInfraEmbeddingModel)
    (T : Transport V) (f : String → V) (queries texts : List String)
    (hT : ∀ req, T req
      = Except.ok { resOk := true, embeddings := some (req.inputs.map f) }) :
    ((_get_query_embeddings c T queries).2
        = Except.ok (queries.map (fun q => f (c.queryPref ++ q)))
      ∧ (_aget_query_embeddings c T queries).2
        = Except.ok (queries.map (fun q => f (c.queryPref ++ q)))
      ∧ (_get_text_embeddings c T texts).2
        = Except.ok (texts.map (fun t => f (c.textPref ++ t)))
      ∧ (_aget_text_embeddings c T texts).2
        = Except.ok (texts.map (fun t => f (c.textPref ++ t))))
    ∧ (queries.map (fun q => f (c.queryPref ++ q))).length = queries.length
    ∧ (texts.map (fun t => f (c.textPref ++ t))).length = texts.length := by
  refine ⟨⟨?_, ?_, ?_, ?_⟩, List.length_map _ _, List.length_map _ _⟩
  · rw [_get_query_embeddings, post_oracle c T f hT, map_addQueryPref]
  · rw [_aget_query_embeddings, apost_oracle c T f hT, map_addQueryPref]
  · rw [_get_text_embeddings, post_oracle c T f hT, map_addTextPref]
  · rw [_aget_text_embeddings, apost_oracle c T f hT, map_addTextPref]

/-- A concrete client used to instantiate theorems on concrete inputs. -/
def sampleClient : DeepInfraEmbeddingModel :=
  { model_id := DEFAULT_MODEL_ID
    normalize := false
    api_token := some ("tok")
    queryPref := "Q: "
    textPref := "T: " }

/-- A concrete deterministic transport: embeds every string as its length. -/
def lenT : Transport Nat := oracleT (fun s => s.length)

/-- Witness for C2 at a concrete client, transport and inputs. -/
theorem c2_embed_length_order_witness :
    ((_get_query_embeddings sampleClient lenT ["a", "b"]).2
        = Except.ok (["a", "b"].map
            (fun q => (sampleClient.queryPref ++ q).length))
      ∧ (_aget_query_embeddings sampleClient lenT ["a", "b"]).2
        = Except.ok (["a", "b"].map
            (fun q => (sampleClient.queryPref ++ q).length))
      ∧ (_get_text_embeddings sampleClient lenT ["c"]).2
        = Except.ok (["c"].map (fun t => (sampleClient.textPref ++ t).length))
      ∧ (_aget_text_embeddings sampleClient lenT ["c"]).2
        = Except.ok (["c"].map (fun t => (sampleClient.textPref ++ t).length)))
    ∧ (["a", "b"].map (fun q => (sampleClient.queryPref ++ q).length)).length
        = (["a", "b"] : List String).length
    ∧ (["c"].map (fun t => (sampleClient.textPref ++ t).length)).length
        = (["c"] : List String).length :=
  c2_embed_length_order sampleClient lenT (fun s => s.length) ["a", "b"] ["c"]
    (fun _ => rfl)

lemma go_agree {V : Type} (c : DeepInfraEmbeddingModel) (T : Transport V)
    (hok : ∀ req resp, T req = Except.ok resp → resp.resOk = true) :
    ∀ (chs : List (List String)) (acc : List V),
      postGo c T chs acc = apostGo c T chs acc := by
  intro chs
  induction chs with
  | nil => intro acc; rfl
  | cons ch rest ih =>
    intro acc
    cases hr : T (mkReq c ch) with
    | error e => simp [postGo, apostGo, hr]
    | ok resp =>
      have hok2 := hok (mkReq c ch) resp hr
      cases hemb : resp.embeddings with
      | none => simp [postGo, apostGo, hr, hok2, hemb]
      | some es => simp [postGo, apostGo, hr, hok2, hemb, ih]

lemma chunk_one (a : α) : _chunkWith MAX_BATCH_SIZE [a] = [[a]] := by
  rw [chunkWith_cons MAX_BATCH_SIZE MAX_BATCH_SIZE_pos [a] (by simp),
    List.take_of_length_le (by simp [MAX_BATCH_SIZE]),
    List.drop_eq_nil_of_le (by simp [MAX_BATCH_SIZE]), chunkWith_nil]

/-- C5 (amended): whenever every response the transport produces carries a
success status, the blocking and the suspendable execution paths agree
exactly: same request trace and same result, for all inputs; the two paths
can differ only on a non-success response (which only the blocking path
rejects). -/
theorem c5_modes_agree {V : Type} (c : DeepInfraEmbeddingModel)
    (T : Transport V) (data : List String)
    (hok : ∀ req resp, T req = Except.ok resp → resp.resOk = true) :
    _post c T data = _apost c T data := by
  rw [_post, _postWith, _apost, _apostWith]
  exact go_agree c T hok (_chunkWith MAX_BATCH_SIZE data) []

/-- Witness for C5 at a concrete client, transport and input. -/
theorem c5_modes_agree_witness :
    _post sampleClient lenT ["a", "b"] = _apost sampleClient lenT ["a", "b"] :=
  c5_modes_agree sampleClient lenT ["a", "b"]
    (fun _ resp h => by injection h with h2; rw [← h2])

/-- A transport answering every request with a non-success status whose body
nevertheless carries an `embeddings` field holding the single vector `v`. -/
def badStatusT (v : Nat) : Transport Nat :=
  fun _ => Except.ok { resOk := false, embeddings := some [v] }

/-- Counterexample to C5 as stated: on the same input and the same
deterministic transport (a non-success response whose body carries an
embeddings field), the blocking path raises while the suspendable path
returns a result — the two modes do not return identical result
sequences. -/
theorem c5_modes_differ_counterexample :
    (_post sampleClient (badStatusT 7) ["a"]).2 = Except.error EmbedErr.statusErr
    ∧ (_apost sampleClient (badStatusT 7) ["a"]).2 = Except.ok [7]
    ∧ (_post sampleClient (badStatusT 7) ["a"]).2
        ≠ (_apost sampleClient (badStatusT 7) ["a"]).2 := by
  have h1 : (_post sampleClient (badStatusT 7) ["a"]).2
      = Except.error EmbedErr.statusErr := by
    rw [_post, _postWith, chunk_one]
    rfl
  have h2 : (_apost sampleClient (badStatusT 7) ["a"]).2 = Except.ok [7] := by
    rw [_apost, _apostWith, chunk_one]
    rfl
  refine ⟨h1, h2, ?_⟩
  rw [h1, h2]
  intro hc
  cases hc

/-- A response on which neither loop raises: a success status and a present
`embeddings` field. -/
abbrev goodResp {V : Type} (r : Except String (DIResponse V)) : Prop :=
  ∃ resp es, r = Except.ok resp ∧ resp.resOk = true ∧ resp.embeddings = some es

/-- A batch outcome on which the blocking loop raises: a transport error, a
non-success status, or a missing `embeddings` key. -/
abbrev syncBad {V : Type} (r : Except String (DIResponse V)) : Prop :=
  (∃ e, r = Except.error e)
  ∨ ∃ resp, r = Except.ok resp ∧ (resp.resOk = false ∨ resp.embeddings = none)

/-- A batch outcome on which the suspendable loop raises: a transport error
or a missing `embeddings` key (the status is never consulted). -/
abbrev asyncBad {V : Type} (r : Except String (DIResponse V)) : Prop :=
  (∃ e, r = Except.error e)
  ∨ ∃ resp, r = Except.ok resp ∧ resp.embeddings = none

lemma postGo_abort {V : Type} (c : DeepInfraEmbeddingModel) (T : Transport V) :
    ∀ (chs : List (List String)) (j : Nat) (acc : List V)
      (hj : j < chs.length),
      (∀ i (hi : i < chs.length), i < j → goodResp (T (mkReq c chs[i]))) →
      syncBad (T (mkReq c chs[j])) →
      (∃ e, (postGo c T chs acc).2 = Except.error e)
      ∧ (postGo c T chs acc).1 = (chs.take (j + 1)).map (mkReq c) := by
  intro chs
  induction chs with
  | nil =>
    intro j acc hj
    exact absurd hj (by simp)
  | cons ch rest ih =>
    intro j acc hj hgood hbad
    cases j with
    | zero =>
      simp only [List.getElem_cons_zero] at hbad
      rcases hbad with ⟨e, he⟩ | ⟨resp, hr, hfail⟩
      · exact ⟨⟨EmbedErr.transportErr e, by simp [postGo, he]⟩,
          by simp [postGo, he]⟩
      · by_cases hres : resp.resOk
        · have hnone : resp.embeddings = none := by
            rcases hfail with hko | hn
            · rw [hres] at hko; cases hko
            · exact hn
          exact ⟨⟨EmbedErr.keyErr, by simp [postGo, hr, hres, hnone]⟩,
            by simp [postGo, hr, hres, hnone]⟩
        · exact ⟨⟨EmbedErr.statusErr, by simp [postGo, hr, hres]⟩,
            by simp [postGo, hr, hres]⟩
    | succ j2 =>
      have hg0 := hgood 0 (by simp) (Nat.succ_pos j2)
      simp only [List.getElem_cons_zero] at hg0
      obtain ⟨resp, es, hr, hok2, hemb⟩ := hg0
      have hjr : j2 < rest.length := by
        simpa using hj
      have hgood2 : ∀ i (hi : i < rest.length), i < j2 →
          goodResp (T (mkReq c rest[i])) := by
        intro i hi hij
        have hh := hgood (i + 1) (by simp; omega) (by omega)
        simpa using hh
      have hbad2 : syncBad (T (mkReq c rest[j2])) := by
        simpa using hbad
      have hrec := ih j2 (acc ++ es) hjr hgood2 hbad2
      constructor
      · obtain ⟨e, he⟩ := hrec.1
        exact ⟨e, by simp [postGo, hr, hok2, hemb, he]⟩
      · simp [postGo, hr, hok2, hemb, hrec.2]

lemma apostGo_abort {V : Type} (c : DeepInfraEmbeddingModel)
    (T : Transport V) :
    ∀ (chs : List (List String)) (j : Nat) (acc : List V)
      (hj : j < chs.length),
      (∀ i (hi : i < chs.length), i < j → goodResp (T (mkReq c chs[i]))) →
      asyncBad (T (mkReq c chs[j])) →
      (∃ e, (apostGo c T chs acc).2 = Except.error e)
      ∧ (apostGo c T chs acc).1 = (chs.take (j + 1)).map (mkReq c) := by
  intro chs
  induction chs with
  | nil =>
    intro j acc hj
    exact absurd hj (by simp)
  | cons ch rest ih =>
    intro j acc hj hgood hbad
    cases j with
    | zero =>
      simp only [List.getElem_cons_zero] at hbad
      rcases hbad with ⟨e, he⟩ | ⟨resp, hr, hnone⟩
      · exact ⟨⟨EmbedErr.transportErr e, by simp [apostGo, he]⟩,
          by simp [apostGo, he]⟩
      · exact ⟨⟨EmbedErr.keyErr, by simp [apostGo, hr, hnone]⟩,
          by simp [apostGo, hr, hnone]⟩
    | succ j2 =>
      have hg0 := hgood 0 (by simp) (Nat.succ_pos j2)
      simp only [List.getElem_cons_zero] at hg0
      obtain ⟨resp, es, hr, hok2, hemb⟩ := hg0
      have hjr : j2 < rest.length := by
        simpa using hj
      have hgood2 : ∀ i (hi : i < rest.length), i < j2 →
          goodResp (T (mkReq c rest[i])) := by
        intro i hi hij
        have hh := hgood (i + 1) (by simp; omega) (by omega)
        simpa using hh
      have hbad2 : asyncBad (T (mkReq c rest[j2])) := by
        simpa using hbad
      have hrec := ih j2 (acc ++ es) hjr hgood2 hbad2
      constructor
      · obtain ⟨e, he⟩ := hrec.1
        exact ⟨e, by simp [apostGo, hr, hemb, he]⟩
      · simp [apostGo, hr, hemb, hrec.2]

/-- C3 (amended): when the batches before batch `j` all receive good
responses and batch `j`'s remote call fails, the call aborts: an error
surfaces, no partial result is returned (the `Except.error` result carries
no embeddings; earlier batches' vectors are discarded), and each of the
first `j + 1` batches was requested exactly once with no retries and no
later batch requested. For the blocking path a failure is a transport
error, a non-success status, or a missing `embeddings` key; for the
suspendable path it is a transport error or a missing `embeddings` key —
the suspendable path never consults the response status. -/
theorem c3_failure_aborts_amended {V : Type} (c : DeepInfraEmbeddingModel)
    (T : Transport V) (data : List String) (j : Nat)
    (hj : j < (_chunk data).length)
    (hgood : ∀ i (hi : i < (_chunk data).length), i < j →
      goodResp (T (mkReq c (_chunk data)[i]))) :
    (syncBad (T (mkReq c (_chunk data)[j])) →
      (∃ e, (_post c T data).2 = Except.error e)
      ∧ (_post c T data).1 = ((_chunk data).take (j + 1)).map (mkReq c))
    ∧ (asyncBad (T (mkReq c (_chunk data)[j])) →
      (∃ e, (_apost c T data).2 = Except.error e)
      ∧ (_apost c T data).1 = ((_chunk data).take (j + 1)).map (mkReq c)) :=
  ⟨fun hbad => postGo_abort c T (_chunk data) j [] hj hgood hbad,
   fun hbad => apostGo_abort c T (_chunk data) j [] hj hgood hbad⟩

/-- A transport whose every call raises a transport-level error. -/
def failT : Transport Nat := fun _ => Except.error ("boom")

/-- Witness for C3 at a concrete client, a failing transport and one batch:
both modes abort with an error and a single issued request. -/
theorem c3_failure_aborts_amended_witness :
    ((∃ e, (_post sampleClient failT ["a"]).2 = Except.error e)
      ∧ (_post sampleClient failT ["a"]).1
          = ((_chunk ["a"]).take 1).map (mkReq sampleClient))
    ∧ ((∃ e, (_apost sampleClient failT ["a"]).2 = Except.error e)
      ∧ (_apost sampleClient failT ["a"]).1
          = ((_chunk ["a"]).take 1).map (mkReq sampleClient)) := by
  have hj : 0 < (_chunk (["a"] : List String)).length := by
    rw [_chunk, chunk_one]
    simp
  have h := c3_failure_aborts_amended sampleClient failT ["a"] 0 hj
    (fun i hi hlt => absurd hlt (Nat.not_lt_zero i))
  exact ⟨h.1 (Or.inl ⟨"boom", rfl⟩), h.2 (Or.inl ⟨"boom", rfl⟩)⟩

/-- Counterexample to C3 as stated: in the non-blocking mode a non-success
(non-2xx) response whose body carries an `embeddings` field does not abort
the call — `_apost` returns a result, while `_post` raises on the very same
transport and input. -/
theorem c3_async_status_counterexample :
    (_apost sampleClient (badStatusT 3) ["x"]).2 = Except.ok [3]
    ∧ (_post sampleClient (badStatusT 3) ["x"]).2
        = Except.error EmbedErr.statusErr := by
  constructor
  · rw [_apost, _apostWith, chunk_one]
    rfl
  · rw [_post, _postWith, chunk_one]
    rfl

lemma trace_inputs_post {V : Type} (c : DeepInfraEmbeddingModel)
    (T : Transport V) (f : String → V)
    (hT : ∀ req, T req
      = Except.ok { resOk := true, embeddings := some (req.inputs.map f) })
    (data : List String) :
    ((_post c T data).1.map (fun r => r.inputs)).flatten = data := by
  rw [post_oracle c T f hT]
  simp only [List.map_map]
  have hid : ((fun r => DIRequest.inputs r) ∘ mkReq c) = id := rfl
  rw [hid, List.map_id, _chunk]
  exact chunkWith_flatten MAX_BATCH_SIZE MAX_BATCH_SIZE_pos data

lemma trace_inputs_apost {V : Type} (c : DeepInfraEmbeddingModel)
    (T : Transport V) (f : String → V)
    (hT : ∀ req, T req
      = Except.ok { resOk := true, embeddings := some (req.inputs.map f) })
    (data : List String) :
    ((_apost c T data).1.map (fun r => r.inputs)).flatten = data := by
  rw [apost_oracle c T f hT]
  simp only [List.map_map]
  have hid : ((fun r => DIRequest.inputs r) ∘ mkReq c) = id := rfl
  rw [hid, List.map_id, _chunk]
  exact chunkWith_flatten MAX_BATCH_SIZE MAX_BATCH_SIZE_pos data

/-- C6: in every mode and for every kind, the strings submitted to the
remote service (the concatenation of the `inputs` fields of the issued
requests, in order) are exactly the inputs with the kind-specific prefix
prepended, in order; an empty prefix leaves the inputs unchanged. -/
theorem c6_prefixing {V : Type} (c : DeepInfraEmbeddingModel)
    (T : Transport V) (f : String → V) (queries texts : List String)
    (hT : ∀ req, T req
      = Except.ok { resOk := true, embeddings := some (req.inputs.map f) }) :
    (((_get_query_embeddings c T queries).1.map (fun r => r.inputs)).flatten
        = queries.map (fun q => c.queryPref ++ q)
      ∧ ((_aget_query_embeddings c T queries).1.map
          (fun r => r.inputs)).flatten
        = queries.map (fun q => c.queryPref ++ q)
      ∧ ((_get_text_embeddings c T texts).1.map (fun r => r.inputs)).flatten
        = texts.map (fun t => c.textPref ++ t)
      ∧ ((_aget_text_embeddings c T texts).1.map (fun r => r.inputs)).flatten
        = texts.map (fun t => c.textPref ++ t))
    ∧ (c.queryPref = "" →
        ((_get_query_embeddings c T queries).1.map
          (fun r => r.inputs)).flatten = queries)
    ∧ (c.textPref = "" →
        ((_get_text_embeddings c T texts).1.map
          (fun r => r.inputs)).flatten = texts) := by
  refine ⟨⟨?_, ?_, ?_, ?_⟩, ?_, ?_⟩
  · rw [_get_query_embeddings, trace_inputs_post c T f hT]; rfl
  · rw [_aget_query_embeddings, trace_inputs_apost c T f hT]; rfl
  · rw [_get_text_embeddings, trace_inputs_post c T f hT]; rfl
  · rw [_aget_text_embeddings, trace_inputs_apost c T f hT]; rfl
  · intro hq
    rw [_get_query_embeddings, trace_inputs_post c T f hT, addQueryPref, hq]
    simp
  · intro ht
    rw [_get_text_embeddings, trace_inputs_post c T f hT, addTextPref, ht]
    simp

/-- A concrete client whose prefixes are both empty. -/
def plainClient : DeepInfraEmbeddingModel :=
  { model_id := DEFAULT_MODEL_ID
    normalize := false
    api_token := none
    queryPref := ""
    textPref := "" }

/-- Witness for C6 at a concrete client with empty prefixes. -/
theorem c6_prefixing_witness :
    ((_get_query_embeddings plainClient lenT ["a", "b"]).1.map
        (fun r => r.inputs)).flatten
      = ["a", "b"].map (fun q => plainClient.queryPref ++ q)
    ∧ ((_aget_query_embeddings plainClient lenT ["a", "b"]).1.map
        (fun r => r.inputs)).flatten
      = ["a", "b"].map (fun q => plainClient.queryPref ++ q)
    ∧ ((_get_text_embeddings plainClient lenT ["c"]).1.map
        (fun r => r.inputs)).flatten
      = ["c"].map (fun t => plainClient.textPref ++ t)
    ∧ ((_aget_text_embeddings plainClient lenT ["c"]).1.map
        (fun r => r.inputs)).flatten
      = ["c"].map (fun t => plainClient.textPref ++ t)
    ∧ ((_get_query_embeddings plainClient lenT ["a", "b"]).1.map
        (fun r => r.inputs)).flatten = ["a", "b"]
    ∧ ((_get_text_embeddings plainClient lenT ["c"]).1.map
        (fun r => r.inputs)).flatten = ["c"] := by
  have h := c6_prefixing plainClient lenT (fun s => s.length) ["a", "b"] ["c"]
    (fun _ => rfl)
  exact ⟨h.1.1, h.1.2.1, h.1.2.2.1, h.1.2.2.2, h.2.1 rfl, h.2.2 rfl⟩

/-- C7: for every batch size `M > 0` and a remote service answering every
batch in order, the loop issues exactly `ceil(N / M)` remote calls for `N`
inputs, one per batch, dispatched in batch order: the i-th request carries
exactly the i-th batch's strings, in both modes. -/
theorem c7_batch_call_count {V : Type} (M : Nat) (hM : 0 < M)
    (c : DeepInfraEmbeddingModel) (T : Transport V) (f : String → V)
    (data : List String)
    (hT : ∀ req, T req
      = Except.ok { resOk := true, embeddings := some (req.inputs.map f) }) :
    (_postWith M c T data).1.map (fun r => r.inputs) = _chunkWith M data
    ∧ (_postWith M c T data).1.length = (data.length + M - 1) / M
    ∧ (_apostWith M c T data).1.map (fun r => r.inputs) = _chunkWith M data
    ∧ (_apostWith M c T data).1.length = (data.length + M - 1) / M := by
  have hp := postWith_oracle M hM c T f hT data
  have ha := apostWith_oracle M hM c T f hT data
  have hid : ((fun r => DIRequest.inputs r) ∘ mkReq c) = id := rfl
  refine ⟨?_, ?_, ?_, ?_⟩
  · rw [hp]
    simp only [List.map_map]
    rw [hid, List.map_id]
  · rw [hp]
    simp only [List.length_map]
    exact chunkWith_length M hM data
  · rw [ha]
    simp only [List.map_map]
    rw [hid, List.map_id]
  · rw [ha]
    simp only [List.length_map]
    exact chunkWith_length M hM data

lemma chunk_two_strings :
    _chunkWith 2 ["a", "b", "c", "d", "e"]
      = [["a", "b"], ["c", "d"], ["e"]] := by
  rw [chunkWith_cons 2 (by omega) _ (by simp),
    show List.take 2 ["a", "b", "c", "d", "e"] = ["a", "b"] from rfl,
    show List.drop 2 ["a", "b", "c", "d", "e"] = ["c", "d", "e"] from rfl,
    chunkWith_cons 2 (by omega) _ (by simp),
    show List.take 2 ["c", "d", "e"] = ["c", "d"] from rfl,
    show List.drop 2 ["c", "d", "e"] = ["e"] from rfl,
    chunkWith_cons 2 (by omega) _ (by simp),
    show List.take 2 ["e"] = ["e"] from rfl,
    show List.drop 2 ["e"] = ([] : List String) from rfl,
    chunkWith_nil]

/-- Witness for C7: with batch size 2 and 5 inputs, exactly 3 calls are
issued, in order, with batch sizes 2, 2, 1. -/
theorem c7_batch_call_count_witness :
    0 < 2
    ∧ ((_postWith 2 sampleClient lenT ["a", "b", "c", "d", "e"]).1.map
          (fun r => r.inputs)
        = _chunkWith 2 ["a", "b", "c", "d", "e"]
      ∧ (_postWith 2 sampleClient lenT ["a", "b", "c", "d", "e"]).1.length
        = (5 + 2 - 1) / 2
      ∧ (_apostWith 2 sampleClient lenT ["a", "b", "c", "d", "e"]).1.map
          (fun r => r.inputs)
        = _chunkWith 2 ["a", "b", "c", "d", "e"]
      ∧ (_apostWith 2 sampleClient lenT ["a", "b", "c", "d", "e"]).1.length
        = (5 + 2 - 1) / 2)
    ∧ (_postWith 2 sampleClient lenT ["a", "b", "c", "d", "e"]).1.map
        (fun r => r.inputs.length) = [2, 2, 1] := by
  have h := c7_batch_call_count 2 (by omega) sampleClient lenT
    (fun s => s.length) ["a", "b", "c", "d", "e"] (fun _ => rfl)
  refine ⟨by omega, h, ?_⟩
  have h1 := h.1
  have hmap : (_postWith 2 sampleClient lenT ["a", "b", "c", "d", "e"]).1.map
      (fun r => r.inputs.length)
      = ((_postWith 2 sampleClient lenT ["a", "b", "c", "d", "e"]).1.map
          (fun r => r.inputs)).map (fun l => l.length) := by
    simp [List.map_map]
  rw [hmap, h1, chunk_two_strings]
  rfl

/-- C4 (code-bug evidence): the constructor stores
`os.getenv(ENV_VARIABLE, api_token)`, so when the environment variable is
set the environment value wins even though an explicit `api_token` was
supplied — contradicting the claimed resolution order (and the
constructor's own docstring, which promises the environment is consulted
only when the token is not provided). At the concrete failing input the
stored token is the environment's value, not the explicit one. -/
theorem c4_env_overrides_explicit_token :
    (mkClient (some ("ENVTOK")) DEFAULT_MODEL_ID false (some ("ARGTOK"))
        ("") ("")).api_token = some ("ENVTOK")
    ∧ (mkClient (some ("ENVTOK")) DEFAULT_MODEL_ID false (some ("ARGTOK"))
        ("") ("")).api_token ≠ some ("ARGTOK")
    ∧ (mkClient none DEFAULT_MODEL_ID false (some ("ARGTOK"))
        ("") ("")).api_token = some ("ARGTOK")
    ∧ (mkClient none DEFAULT_MODEL_ID false none ("") ("")).api_token
        = none := by
  exact ⟨rfl, by decide, rfl, rfl⟩

/-- C8: each single-item convenience operation equals the batched operation
applied to the singleton list followed by taking the first element
(Python's `[0]`), in both modes; under an order-preserving remote service
it therefore returns exactly the vector of the one prefixed input. -/
theorem c8_single_matches_batched {V : Type} (c : DeepInfraEmbeddingModel)
    (T : Transport V) (f : String → V) (query text : String)
    (hT : ∀ req, T req
      = Except.ok { resOk := true, embeddings := some (req.inputs.map f) }) :
    (_get_query_embedding c T query
        = ((_get_query_embeddings c T [query]).1,
           pyIdx0 (_get_query_embeddings c T [query]).2)
      ∧ _aget_query_embedding c T query
        = ((_aget_query_embeddings c T [query]).1,
           pyIdx0 (_aget_query_embeddings c T [query]).2)
      ∧ _get_text_embedding c T text
        = ((_get_text_embeddings c T [text]).1,
           pyIdx0 (_get_text_embeddings c T [text]).2)
      ∧ _aget_text_embedding c T text
        = ((_aget_text_embeddings c T [text]).1,
           pyIdx0 (_aget_text_embeddings c T [text]).2))
    ∧ ((_get_query_embedding c T query).2
        = Except.ok (f (c.queryPref ++ query))
      ∧ (_aget_query_embedding c T query).2
        = Except.ok (f (c.queryPref ++ query))
      ∧ (_get_text_embedding c T text).2
        = Except.ok (f (c.textPref ++ text))
      ∧ (_aget_text_embedding c T text).2
        = Except.ok (f (c.textPref ++ text))) := by
  refine ⟨⟨rfl, rfl, rfl, rfl⟩, ?_, ?_, ?_, ?_⟩
  · rw [_get_query_embedding, post_oracle c T f hT]
    rfl
  · rw [_aget_query_embedding, apost_oracle c T f hT]
    rfl
  · rw [_get_text_embedding, post_oracle c T f hT]
    rfl
  · rw [_aget_text_embedding, apost_oracle c T f hT]
    rfl

/-- Witness for C8 at a concrete client, transport and strings. -/
theorem c8_single_matches_batched_witness :
    (_get_query_embedding sampleClient lenT "a"
        = ((_get_query_embeddings sampleClient lenT ["a"]).1,
           pyIdx0 (_get_query_embeddings sampleClient lenT ["a"]).2)
      ∧ _aget_query_embedding sampleClient lenT "a"
        = ((_aget_query_embeddings sampleClient lenT ["a"]).1,
           pyIdx0 (_aget_query_embeddings sampleClient lenT ["a"]).2)
      ∧ _get_text_embedding sampleClient lenT "b"
        = ((_get_text_embeddings sampleClient lenT ["b"]).1,
           pyIdx0 (_get_text_embeddings sampleClient lenT ["b"]).2)
      ∧ _aget_text_embedding sampleClient lenT "b"
        = ((_aget_text_embeddings sampleClient lenT ["b"]).1,
           pyIdx0 (_aget_text_embeddings sampleClient lenT ["b"]).2))
    ∧ ((_get_query_embedding sampleClient lenT "a").2
        = Except.ok (sampleClient.queryPref ++ "a").length
      ∧ (_aget_query_embedding sampleClient lenT "a").2
        = Except.ok (sampleClient.queryPref ++ "a").length
      ∧ (_get_text_embedding sampleClient lenT "b").2
        = Except.ok (sampleClient.textPref ++ "b").length
      ∧ (_aget_text_embedding sampleClient lenT "b").2
        = Except.ok (sampleClient.textPref ++ "b").length) :=
  c8_single_matches_batched sampleClient lenT (fun s => s.length) "a" "b"
    (fun _ => rfl)

lemma postGo_norm {V : Type} (c : DeepInfraEmbeddingModel) (b : Bool)
    (T : Transport V) :
    ∀ (chs : List (List String)) (acc : List V),
      postGo { c with normalize := b } T chs acc = postGo c T chs acc := by
  intro chs
  induction chs with
  | nil => intro acc; rfl
  | cons ch rest ih =>
    intro acc
    simp only [postGo,
      show mkReq { c with normalize := b } ch = mkReq c ch from rfl, ih]

lemma apostGo_norm {V : Type} (c : DeepInfraEmbeddingModel) (b : Bool)
    (T : Transport V) :
    ∀ (chs : List (List String)) (acc : List V),
      apostGo { c with normalize := b } T chs acc = apostGo c T chs acc := by
  intro chs
  induction chs with
  | nil => intro acc; rfl
  | cons ch rest ih =>
    intro acc
    simp only [apostGo,
      show mkReq { c with normalize := b } ch = mkReq c ch from rfl, ih]

/-- C9: the `normalize` flag is inert. Two clients that differ only in the
flag's value behave identically on every operation: same URL, same
prefixed strings, same request traces (url, inputs and authorization
header alike) and same results, for every transport and inputs, in both
modes; the flag is stored but never read. -/
theorem c9_normalize_inert {V : Type} (c : DeepInfraEmbeddingModel) (b : Bool)
    (T : Transport V) (data queries texts : List String)
    (query text : String) :
    get_url { c with normalize := b } = get_url c
    ∧ addQueryPref { c with normalize := b } queries = addQueryPref c queries
    ∧ addTextPref { c with normalize := b } texts = addTextPref c texts
    ∧ _post { c with normalize := b } T data = _post c T data
    ∧ _apost { c with normalize := b } T data = _apost c T data
    ∧ _get_query_embedding { c with normalize := b } T query
        = _get_query_embedding c T query
    ∧ _aget_query_embedding { c with normalize := b } T query
        = _aget_query_embedding c T query
    ∧ _get_query_embeddings { c with normalize := b } T queries
        = _get_query_embeddings c T queries
    ∧ _aget_query_embeddings { c with normalize := b } T queries
        = _aget_query_embeddings c T queries
    ∧ _get_text_embedding { c with normalize := b } T text
        = _get_text_embedding c T text
    ∧ _aget_text_embedding { c with normalize := b } T text
        = _aget_text_embedding c T text
    ∧ _get_text_embeddings { c with normalize := b } T texts
        = _get_text_embeddings c T texts
    ∧ _aget_text_embeddings { c with normalize := b } T texts
        = _aget_text_embeddings c T texts := by
  have hpost : ∀ d, _post { c with normalize := b } T d = _post c T d := by
    intro d
    simp only [_post, _postWith]
    exact postGo_norm c b T (_chunkWith MAX_BATCH_SIZE d) []
  have hapost : ∀ d, _apost { c with normalize := b } T d = _apost c T d := by
    intro d
    simp only [_apost, _apostWith]
    exact apostGo_norm c b T (_chunkWith MAX_BATCH_SIZE d) []
  have hq : addQueryPref { c with normalize := b } = addQueryPref c := rfl
  have ht : addTextPref { c with normalize := b } = addTextPref c := rfl
  refine ⟨rfl, rfl, rfl, hpost data, hapost data, ?_, ?_, ?_, ?_, ?_, ?_,
    ?_, ?_⟩
  · simp only [_get_query_embedding, hq, hpost]
  · simp only [_aget_query_embedding, hq, hapost]
  · simp only [_get_query_embeddings, hq, hpost]
  · simp only [_aget_query_embeddings, hq, hapost]
  · simp only [_get_text_embedding, ht, hpost]
  · simp only [_aget_text_embedding, ht, hapost]
  · simp only [_get_text_embeddings, ht, hpost]
  · simp only [_aget_text_embeddings, ht, hapost]

/-!
State-threaded variants for the frame property: Python methods can mutate
the object only by assigning to `self`; none of the methods below contains
such an assignment, so the threaded client that each variant returns is
built only by passing the incoming client through the sub-calls. The
variants make that explicit so the frame property is a statement, not a
convention.
-/

/-- `get_url`, threading the client state. -/
def get_urlS (c : DeepInfraEmbeddingModel) :
    String × DeepInfraEmbeddingModel :=
  (get_url c, c)

/-- `_add_query_prefix`, threading the client state. -/
def addQueryPrefS (c : DeepInfraEmbeddingModel) (queries : List String) :
    List String × DeepInfraEmbeddingModel :=
  (addQueryPref c queries, c)

/-- `_add_text_prefix`, threading the client state. -/
def addTextPrefS (c : DeepInfraEmbeddingModel) (texts : List String) :
    List String × DeepInfraEmbeddingModel :=
  (addTextPref c texts, c)

/-- `_post`, threading the client state through `get_url` and the loop. -/
def _postS {V : Type} (c : DeepInfraEmbeddingModel) (T : Transport V)
    (data : List String) :
    (List DIRequest × Except EmbedErr (List V)) × DeepInfraEmbeddingModel :=
  let u := get_urlS c
  (postGo u.2 T (_chunk data) [], u.2)

/-- `_apost`, threading the client state through `get_url` and the loop. -/
def _apostS {V : Type} (c : DeepInfraEmbeddingModel) (T : Transport V)
    (data : List String) :
    (List DIRequest × Except EmbedErr (List V)) × DeepInfraEmbeddingModel :=
  let u := get_urlS c
  (apostGo u.2 T (_chunk data) [], u.2)

/-- `_get_query_embedding`, threading the client state. -/
def _get_query_embeddingS {V : Type} (c : DeepInfraEmbeddingModel)
    (T : Transport V) (query : String) :
    (List DIRequest × Except EmbedErr V) × DeepInfraEmbeddingModel :=
  let p := addQueryPrefS c [query]
  let r := _postS p.2 T p.1
  ((r.1.1, pyIdx0 r.1.2), r.2)

/-- `_aget_query_embedding`, threading the client state. -/
def _aget_query_embeddingS {V : Type} (c : DeepInfraEmbeddingModel)
    (T : Transport V) (query : String) :
    (List DIRequest × Except EmbedErr V) × DeepInfraEmbeddingModel :=
  let p := addQueryPrefS c [query]
  let r := _apostS p.2 T p.1
  ((r.1.1, pyIdx0 r.1.2), r.2)

/-- `_get_query_embeddings`, threading the client state. -/
def _get_query_embeddingsS {V : Type} (c : DeepInfraEmbeddingModel)
    (T : Transport V) (queries : List String) :
    (List DIRequest × Except EmbedErr (List V)) × DeepInfraEmbeddingModel :=
  let p := addQueryPrefS c queries
  _postS p.2 T p.1

/-- `_aget_query_embeddings`, threading the client state. -/
def _aget_query_embeddingsS {V : Type} (c : DeepInfraEmbeddingModel)
    (T : Transport V) (queries : List String) :
    (List DIRequest × Except EmbedErr (List V)) × DeepInfraEmbeddingModel :=
  let p := addQueryPrefS c queries
  _apostS p.2 T p.1

/-- `_get_text_embedding`, threading the client state. -/
def _get_text_embeddingS {V : Type} (c : DeepInfraEmbeddingModel)
    (T : Transport V) (text : String) :
    (List DIRequest × Except EmbedErr V) × DeepInfraEmbeddingModel :=
  let p := addTextPrefS c [text]
  let r := _postS p.2 T p.1
  ((r.1.1, pyIdx0 r.1.2), r.2)

/-- `_aget_text_embedding`, threading the client state. -/
def _aget_text_embeddingS {V : Type} (c : DeepInfraEmbeddingModel)
    (T : Transport V) (text : String) :
    (List DIRequest × Except EmbedErr V) × DeepInfraEmbeddingModel :=
  let p := addTextPrefS c [text]
  let r := _apostS p.2 T p.1
  ((r.1.1, pyIdx0 r.1.2), r.2)

/-- `_get_text_embeddings`, threading the client state. -/
def _get_text_embeddingsS {V : Type} (c : DeepInfraEmbeddingModel)
    (T : Transport V) (texts : List String) :
    (List DIRequest × Except EmbedErr (List V)) × DeepInfraEmbeddingModel :=
  let p := addTextPrefS c texts
  _postS p.2 T p.1

/-- `_aget_text_embeddings`, threading the client state. -/
def _aget_text_embeddingsS {V : Type} (c : DeepInfraEmbeddingModel)
    (T : Transport V) (texts : List String) :
    (List DIRequest × Except EmbedErr (List V)) × DeepInfraEmbeddingModel :=
  let p := addTextPrefS c texts
  _apostS p.2 T p.1

/-- C10: every operation is read-only on the client's configuration: the
client state coming out of each state-threaded operation is exactly the
incoming one, so the model id, normalize flag, token and both prefixes
still hold their construction-time values after any call. -/
theorem c10_operations_frame {V : Type} (c : DeepInfraEmbeddingModel)
    (T : Transport V) (data queries texts : List String)
    (query text : String) :
    (get_urlS c).2 = c
    ∧ (addQueryPrefS c queries).2 = c
    ∧ (addTextPrefS c texts).2 = c
    ∧ (_postS c T data).2 = c
    ∧ (_apostS c T data).2 = c
    ∧ (_get_query_embeddingS c T query).2 = c
    ∧ (_aget_query_embeddingS c T query).2 = c
    ∧ (_get_query_embeddingsS c T queries).2 = c
    ∧ (_aget_query_embeddingsS c T queries).2 = c
    ∧ (_get_text_embeddingS c T text).2 = c
    ∧ (_aget_text_embeddingS c T text).2 = c
    ∧ (_get_text_embeddingsS c T texts).2 = c
    ∧ (_aget_text_embeddingsS c T texts).2 = c :=
  ⟨rfl, rfl, rfl, rfl, rfl, rfl, rfl, rfl, rfl, rfl, rfl, rfl, rfl⟩
